import Mathlib

/-!
# stl_runtime: a verification development

A shallow embedding of `stl_runtime.cpp`, the benchmark that times insertion
into and lookup in `std::vector`, `std::list`, `std::set` and
`std::unordered_set`, followed by theorems about it.

Modelling conventions.

* `std::chrono::milliseconds` is a tick count held in a signed 64-bit
  integer.  A count is an `Int`.  The product `100 * stl_time` and the
  difference of two clock readings are reduced to the signed 64-bit range
  (C++ leaves the overflow undefined; the model takes the two's-complement
  result of the usual targets).  The division truncates toward zero and has
  no result for a zero divisor.
* `std::cout` is the text written so far; `std::flush` writes nothing and
  `std::endl` writes a line feed.
* `std::chrono::high_resolution_clock::now()` is an input of the program: the
  world carries the sequence of its successive readings, in nanoseconds.
* `std::vector<int>` and `std::list<int>` are the list of their elements;
  `std::set<int>` is the ascending list of its keys; `std::unordered_set<int>`
  is the finite set of its keys.  A container passed by reference is returned
  by the function that receives it.
* `std::shuffle` with a default-constructed engine is a parameter of `main`.
* The lookup benchmarks record the lookups they issue (`FindRun.queries`);
  the record is not part of the program's state.
-/

namespace StlRuntime

/-! ## Machine integers -/

/-- Reduction of an integer to the signed 64-bit range. -/
def wrap64 (x : Int) : Int := (x + 9223372036854775808) % 18446744073709551616 - 9223372036854775808

/-- Signed 64-bit multiplication. -/
def smul64 (a b : Int) : Int := wrap64 (a * b)

/-- Signed 64-bit subtraction. -/
def ssub64 (a b : Int) : Int := wrap64 (a - b)

/-- Signed 64-bit division: truncates toward zero; no result when the divisor
is zero or the quotient is not representable. -/
def sdiv64 (a b : Int) : Option Int :=
  if b = 0 then none
  else if a = -9223372036854775808 ∧ b = -1 then none
  else some (Int.tdiv a b)

/-! ## Durations -/

/-- The type `std::chrono::milliseconds`: a tick count. -/
structure milliseconds where
  count : Int
deriving DecidableEq, Repr

/-- The enumeration `Operation` of the source. -/
inductive Operation where
  | end_
  | begin
  | find
deriving DecidableEq, Repr

/-- The function `percent_relative`: `milliseconds((100 * stl_time) / v_time)`. -/
def percent_relative (v_time stl_time : milliseconds) : Option milliseconds :=
  (sdiv64 (smul64 100 stl_time.count) v_time.count).map milliseconds.mk

/-! ## The world: clock and standard output -/

/-- The part of the environment the program touches: the successive readings
of `std::chrono::high_resolution_clock::now()` (in clock ticks), the number of
readings taken so far, and the text written to `std::cout`. -/
structure World where
  clock : Nat → Int
  reads : Nat
  cout : String

/-- One call of `std::chrono::high_resolution_clock::now()`. -/
def high_resolution_clock_now (w : World) : Int × World :=
  (w.clock w.reads, { w with reads := w.reads + 1 })

/-- The conversion `std::chrono::duration_cast<std::chrono::milliseconds>` of
a tick difference: the clock counts nanoseconds, the quotient truncates. -/
def duration_cast_milliseconds (ticks : Int) : milliseconds :=
  ⟨Int.tdiv ticks 1000000⟩

/-- The text `operator<<` writes for a tick count: its decimal numeral. -/
def show_count (n : Int) : String := toString n

/-- The function `print_result`.  The text goes to `std::cout`; there is no
result when `percent_relative` has none. -/
def print_result (v_time stl_time : milliseconds) (stlcontainer : String)
    (operation : Operation) (is_vector : Bool) (w : World) : Option World :=
  let cout := match operation with
    | Operation.begin => w.cout ++ stlcontainer ++ ": Inserting at the beginning"
    | Operation.end_ => w.cout ++ stlcontainer ++ ": Inserting at the end"
    | Operation.find => w.cout ++ stlcontainer ++ ": Finding 1~10,000"
  let cout := cout ++ ", elapsed time: " ++ show_count stl_time.count ++ "ms. "
  if is_vector then
    some { w with cout := cout ++ "\n" }
  else
    (percent_relative v_time stl_time).map fun p =>
      { w with cout := cout ++ show_count p.count ++ "% relative to vector's time." ++ "\n" }

/-! ## The containers -/

/-- The type `std::vector<int>`: its elements in order. -/
structure std_vector where
  data : List Int
deriving DecidableEq, Repr

/-- The type `std::list<int>`: its elements in order. -/
structure std_list where
  data : List Int
deriving DecidableEq, Repr

/-- The type `std::set<int>`: its keys in iteration order, which is ascending
and free of duplicates for every set built from the empty one (the
structure does not carry the invariant; `foldl_set_insert` proves it kept). -/
structure std_set where
  data : List Int
deriving DecidableEq, Repr

/-- The type `std::unordered_set<int>`: its keys, in no order. -/
structure std_unordered_set where
  data : Finset Int
deriving DecidableEq

/-- Insertion of a key into an ascending list of keys; a key already present
is not inserted again. -/
def ordered_insert (x : Int) : List Int → List Int
  | [] => [x]
  | y :: ys =>
    if x < y then x :: y :: ys
    else if x = y then y :: ys
    else y :: ordered_insert x ys

/-- What `my_insert` asks of its container type: `c.insert(c.begin(), x)` and
`c.insert(c.end(), x)`. -/
class HasInsert (T : Type) where
  insert_begin : T → Int → T
  insert_end : T → Int → T

instance : HasInsert std_vector where
  insert_begin c x := ⟨x :: c.data⟩
  insert_end c x := ⟨c.data ++ [x]⟩

instance : HasInsert std_list where
  insert_begin c x := ⟨x :: c.data⟩
  insert_end c x := ⟨c.data ++ [x]⟩

/-- For a set the iterator is a hint: it does not change the result. -/
instance : HasInsert std_set where
  insert_begin c x := ⟨ordered_insert x c.data⟩
  insert_end c x := ⟨ordered_insert x c.data⟩

/-- For an unordered set the iterator is a hint: it does not change the result. -/
instance : HasInsert std_unordered_set where
  insert_begin c x := ⟨insert x c.data⟩
  insert_end c x := ⟨insert x c.data⟩

/-- The member `clear()` of `std::vector`. -/
def std_vector.clear (_ : std_vector) : std_vector := ⟨[]⟩
/-- The member `clear()` of `std::list`. -/
def std_list.clear (_ : std_list) : std_list := ⟨[]⟩
/-- The member `clear()` of `std::set`. -/
def std_set.clear (_ : std_set) : std_set := ⟨[]⟩
/-- The member `clear()` of `std::unordered_set`. -/
def std_unordered_set.clear (_ : std_unordered_set) : std_unordered_set := ⟨∅⟩

/-- The member `push_back` of `std::vector`. -/
def std_vector.push_back (c : std_vector) (x : Int) : std_vector := ⟨c.data ++ [x]⟩

/-- The elements a container holds, with multiplicity. -/
class HasElements (T : Type) where
  elements : T → Multiset Int

instance : HasElements std_vector := ⟨fun c => (c.data : Multiset Int)⟩
instance : HasElements std_list := ⟨fun c => (c.data : Multiset Int)⟩
instance : HasElements std_set := ⟨fun c => (c.data : Multiset Int)⟩
instance : HasElements std_unordered_set := ⟨fun c => c.data.val⟩

/-! ## The insertion benchmark -/

/-- The function template `my_insert`: the elapsed time, the container after
the call and the world after the call. -/
def my_insert {T : Type} [HasInsert T] (input : std_vector) (stlcontainer : T)
    (position : Operation) (w : World) : milliseconds × T × World :=
  let (start, w) := high_resolution_clock_now w
  let stlcontainer := match position with
    | Operation.begin => input.data.foldl HasInsert.insert_begin stlcontainer
    | Operation.end_ => input.data.foldl HasInsert.insert_end stlcontainer
    | Operation.find => stlcontainer
  let (end_, w) := high_resolution_clock_now w
  let elapsed := duration_cast_milliseconds (ssub64 end_ start)
  (elapsed, stlcontainer, w)

/-! ## The lookup benchmarks -/

/-- The loop `for (int i = first; i <= last; ++i) body`, on the state the body
updates. -/
def for_loop {σ : Type} (last : Int) (body : Int → σ → σ) (i : Int) (s : σ) : σ :=
  if i ≤ last then for_loop last body (i + 1) (body i s) else s
termination_by (last + 1 - i).toNat
decreasing_by omega

/-- The algorithm `std::find(first, last, value)` on a sequence: the offset of
the iterator it returns, which is the length of the sequence for `last`. -/
def std_find : List Int → Int → Nat
  | [], _ => 0
  | x :: xs, value => if x = value then 0 else std_find xs value + 1

/-- One lookup as the benchmark issues it: the key asked for, and whether the
iterator that came back (and is dropped) was not the end iterator. -/
structure Query where
  key : Int
  hit : Bool
deriving DecidableEq, Repr

/-- What `v_l_find` asks of its container type: the range `cbegin()` to
`cend()`. -/
class HasRange (T : Type) where
  range : T → List Int

instance : HasRange std_vector := ⟨std_vector.data⟩
instance : HasRange std_list := ⟨std_list.data⟩

/-- What `s_uos_find` asks of its container type: the member `find(key)`,
here whether it returns an iterator other than `end()`. -/
class HasFind (T : Type) where
  find : T → Int → Bool

instance : HasFind std_set := ⟨fun c key => decide (key ∈ c.data)⟩
instance : HasFind std_unordered_set := ⟨fun c key => decide (key ∈ c.data)⟩

/-- What a lookup benchmark leaves behind: the elapsed time, the container
after the call, the lookups issued in order, and the world after the call. -/
structure FindRun (T : Type) where
  elapsed : milliseconds
  stlcontainer : T
  queries : List Query
  world : World

/-- The function template `v_l_find`. -/
def v_l_find {T : Type} [HasRange T] (stlcontainer : T) (w : World) : FindRun T :=
  let (start, w) := high_resolution_clock_now w
  let queries := for_loop 10000
    (fun i queries =>
      let it := std_find (HasRange.range stlcontainer) i
      queries ++ [⟨i, decide (it ≠ (HasRange.range stlcontainer).length)⟩])
    1 []
  let (end_, w) := high_resolution_clock_now w
  let elapsed := duration_cast_milliseconds (ssub64 end_ start)
  ⟨elapsed, stlcontainer, queries, w⟩

/-- The function template `s_uos_find`. -/
def s_uos_find {T : Type} [HasFind T] (stlcontainer : T) (w : World) : FindRun T :=
  let (start, w) := high_resolution_clock_now w
  let queries := for_loop 10000
    (fun i queries => queries ++ [⟨i, HasFind.find stlcontainer i⟩])
    1 []
  let (end_, w) := high_resolution_clock_now w
  let elapsed := duration_cast_milliseconds (ssub64 end_ start)
  ⟨elapsed, stlcontainer, queries, w⟩

/-! ## The driver -/

/-- The containers `v2`, `l`, `s` and `uos` of `main`. -/
structure Containers where
  v2 : std_vector
  l : std_list
  s : std_set
  uos : std_unordered_set

/-- The statement `std::cout << std::endl`. -/
def cout_endl (w : World) : World := { w with cout := w.cout ++ "\n" }

/-- The dataset `v` of `main`: 1 to 100000 pushed in ascending order, then
shuffled. -/
def main_dataset (shuffle : List Int → List Int) : std_vector :=
  let v := for_loop 100000 (fun i v => std_vector.push_back v i) 1 (⟨[]⟩ : std_vector)
  ⟨shuffle v.data⟩

/-- The first phase of `main`: inserting at the end of four fresh containers. -/
def main_insert_end (v : std_vector) (w : World) : Option (Containers × World) := do
  let v2 : std_vector := ⟨[]⟩
  let (v_time, v2, w) := my_insert v v2 Operation.end_ w
  let w ← print_result v_time v_time "Vector" Operation.end_ true w
  let l : std_list := ⟨[]⟩
  let (l_time, l, w) := my_insert v l Operation.end_ w
  let w ← print_result v_time l_time "List" Operation.end_ false w
  let s : std_set := ⟨[]⟩
  let (s_time, s, w) := my_insert v s Operation.end_ w
  let w ← print_result v_time s_time "Set" Operation.end_ false w
  let uos : std_unordered_set := ⟨∅⟩
  let (uos_time, uos, w) := my_insert v uos Operation.end_ w
  let w ← print_result v_time uos_time "Unordered Set" Operation.end_ false w
  pure (⟨v2, l, s, uos⟩, w)

/-- The second phase of `main`: clearing each container and inserting at its
beginning. -/
def main_insert_begin (v : std_vector) (c : Containers) (w : World) :
    Option (Containers × World) := do
  let v2 := c.v2.clear
  let (v_time, v2, w) := my_insert v v2 Operation.begin w
  let w ← print_result v_time v_time "Vector" Operation.begin true w
  let l := c.l.clear
  let (l_time, l, w) := my_insert v l Operation.begin w
  let w ← print_result v_time l_time "List" Operation.begin false w
  let s := c.s.clear
  let (s_time, s, w) := my_insert v s Operation.begin w
  let w ← print_result v_time s_time "Set" Operation.begin false w
  let uos := c.uos.clear
  let (uos_time, uos, w) := my_insert v uos Operation.begin w
  let w ← print_result v_time uos_time "Unordered Set" Operation.begin false w
  pure (⟨v2, l, s, uos⟩, w)

/-- The third phase of `main`: the lookups, in the containers as they are. -/
def main_find (c : Containers) (w : World) : Option (Containers × World) := do
  let r := v_l_find c.v2 w
  let v_time := r.elapsed
  let v2 := r.stlcontainer
  let w ← print_result v_time v_time "Vector" Operation.find true r.world
  let r := v_l_find c.l w
  let l := r.stlcontainer
  let w ← print_result v_time r.elapsed "List" Operation.find false r.world
  let r := s_uos_find c.s w
  let s := r.stlcontainer
  let w ← print_result v_time r.elapsed "Set" Operation.find false r.world
  let r := s_uos_find c.uos w
  let uos := r.stlcontainer
  let w ← print_result v_time r.elapsed "Unordered Set" Operation.find false r.world
  pure (⟨v2, l, s, uos⟩, w)

/-- The function `main`: the exit code, the containers and the world at
`return 0`; no result when a division by a zero baseline stops the run. -/
def main (shuffle : List Int → List Int) (w : World) : Option (Int × Containers × World) := do
  let v := main_dataset shuffle
  let (c, w) ← main_insert_end v w
  let w := cout_endl w
  let (c, w) ← main_insert_begin v c w
  let w := cout_endl w
  let (c, w) ← main_find c w
  pure (0, c, w)

/-! ## Vocabulary of the statements -/

/-- The integers `1, 2, ..., n` in ascending order. -/
def one_to (n : Nat) : List Int := (List.range' 1 n).map Int.ofNat

/-- The line the specification describes for a result, without its line
feed: `<label>: <operation description>, elapsed time: <M>ms.` -/
def elapsed_text (label description : String) (M : Int) : String :=
  label ++ ": " ++ description ++ ", elapsed time: " ++ show_count M ++ "ms."

/-- The clause the specification describes after the elapsed time:
`<P>% relative to vector's time.` -/
def percent_text (P : Int) : String :=
  show_count P ++ "% relative to vector's time."

/-- The operation description `print_result` writes for a tag. -/
def operation_description : Operation → String
  | Operation.begin => "Inserting at the beginning"
  | Operation.end_ => "Inserting at the end"
  | Operation.find => "Finding 1~10,000"

/-- The percentage `percent_relative` returns, as a number (0 where it has no
result). -/
def percent_count (B M : milliseconds) : Int :=
  match percent_relative B M with
  | some p => p.count
  | none => 0

/-- A baseline line as `print_result` writes it, without its line feed. -/
def baseline_line (label : String) (operation : Operation) (M : milliseconds) : String :=
  elapsed_text label (operation_description operation) M.count ++ " "

/-- A line with the percentage clause as `print_result` writes it, without its
line feed. -/
def relative_line (label : String) (operation : Operation) (B M : milliseconds) : String :=
  elapsed_text label (operation_description operation) M.count ++ " " ++
    percent_text (percent_count B M)

/-- The four lines of one phase of the driver, given the phase's four
measurements, the vector's first. -/
def phase_lines (operation : Operation) (mv ml ms mu : milliseconds) : List String :=
  [baseline_line "Vector" operation mv,
   relative_line "List" operation mv ml,
   relative_line "Set" operation mv ms,
   relative_line "Unordered Set" operation mv mu]

/-- The fourteen lines of a run of the driver, given its twelve measurements
in the order they are taken. -/
def driver_lines (m : Nat → milliseconds) : List String :=
  phase_lines Operation.end_ (m 0) (m 1) (m 2) (m 3) ++ [""] ++
  phase_lines Operation.begin (m 4) (m 5) (m 6) (m 7) ++ [""] ++
  phase_lines Operation.find (m 8) (m 9) (m 10) (m 11)

/-- The text of a list of lines, each ended by a line feed. -/
def lines_text : List String → String
  | [] => ""
  | line :: rest => line ++ "\n" ++ lines_text rest

/-- The duration a benchmark measures when its first clock reading is the
`r`-th: the difference to the next reading, in whole milliseconds. -/
def elapsed_between (clock : Nat → Int) (r : Nat) : milliseconds :=
  duration_cast_milliseconds (ssub64 (clock (r + 1)) (clock r))

/-- The duration the `k`-th benchmark started from world `w` measures: the
difference of the clock readings `2 * k` and `2 * k + 1` counted from `w`,
in whole milliseconds. -/
def measurement (w : World) (k : Nat) : milliseconds :=
  elapsed_between w.clock (w.reads + 2 * k)

/-- The two insertion phases of `main`, up to the start of the lookups. -/
def main_insert_phases (shuffle : List Int → List Int) (w : World) :
    Option (Containers × World) :=
  (main_insert_end (main_dataset shuffle) w).bind fun p =>
    (main_insert_begin (main_dataset shuffle) p.1 (cout_endl p.2)).map fun q =>
      (q.1, cout_endl q.2)

/-- A world whose clock reads `k * k` milliseconds at its `k`-th reading, with
nothing written yet: the `k`-th benchmark measures `4 * k + 1` ms. -/
def ticking_world : World := ⟨fun k => 1000000 * ((k : Int) * (k : Int)), 0, ""⟩

/-! ## Arithmetic lemmas -/

theorem wrap64_of_representable (x : Int) (hlo : -9223372036854775808 ≤ x)
    (hhi : x ≤ 9223372036854775807) : wrap64 x = x := by
  unfold wrap64
  omega

theorem sdiv64_of_pos (a b : Int) (hb : 0 < b) : sdiv64 a b = some (Int.tdiv a b) := by
  unfold sdiv64
  have h0 : b ≠ 0 := by omega
  have h1 : ¬ (a = -9223372036854775808 ∧ b = -1) := by omega
  simp [h0, h1]

/-- With a positive baseline `percent_relative` always has a result: the
truncated quotient of the wrapped product. -/
theorem percent_relative_of_pos (B M : Int) (hB : 0 < B) :
    percent_relative ⟨B⟩ ⟨M⟩ = some ⟨Int.tdiv (wrap64 (100 * M)) B⟩ := by
  simp [percent_relative, smul64, sdiv64_of_pos _ _ hB]

theorem tdiv_floor_rat (a b : Int) (ha : 0 ≤ a) (hb : 0 < b) :
    Int.tdiv a b = ⌊(a : ℚ) / (b : ℚ)⌋ := by
  rw [Int.tdiv_eq_ediv ha hb.le]
  have hcast : ((b.toNat : ℕ) : ℤ) = b := Int.toNat_of_nonneg hb.le
  have h := Rat.floor_intCast_div_natCast a b.toNat
  have hq : ((b.toNat : ℕ) : ℚ) = (b : ℚ) :=
    calc ((b.toNat : ℕ) : ℚ) = (((b.toNat : ℕ) : ℤ) : ℚ) := (Int.cast_natCast _).symm
      _ = (b : ℚ) := by rw [hcast]
  rw [hq, hcast] at h
  exact h.symm

theorem tdiv_mono_left (a c b : Int) (hb : 0 < b) (hac : a ≤ c) :
    Int.tdiv a b ≤ Int.tdiv c b := by
  rcases le_or_lt 0 a with ha | ha
  · have hc : 0 ≤ c := le_trans ha hac
    rw [Int.tdiv_eq_ediv ha hb.le, Int.tdiv_eq_ediv hc hb.le]
    exact Int.ediv_le_ediv hb hac
  · rcases le_or_lt 0 c with hc | hc
    · have h1 : Int.tdiv a b ≤ 0 := by
        have h : 0 ≤ Int.tdiv (-a) b := Int.tdiv_nonneg (by omega) hb.le
        rw [Int.neg_tdiv] at h
        omega
      exact le_trans h1 (Int.tdiv_nonneg hc hb.le)
    · have h1 : Int.tdiv a b = -((-a) / b) := by
        rw [← Int.tdiv_eq_ediv (by omega) hb.le, Int.neg_tdiv]
        omega
      have h2 : Int.tdiv c b = -((-c) / b) := by
        rw [← Int.tdiv_eq_ediv (by omega) hb.le, Int.neg_tdiv]
        omega
      rw [h1, h2]
      have h3 : (-c) / b ≤ (-a) / b := Int.ediv_le_ediv hb (by omega)
      omega

/-! ## The relative percentage -/

/-- Claim C1.  For a baseline `B > 0` and a measured duration `M ≥ 0` with
`100 * M` representable in the signed 64-bit tick count, `percent_relative`
returns the floor of the rational `100 * M / B`; it gets there by dividing
the product `100 * M`, so the scaling happens before the division. -/
theorem percent_relative_floor (B M : Int) (hB : 0 < B) (hM : 0 ≤ M)
    (hrep : 100 * M ≤ 9223372036854775807) :
    percent_relative ⟨B⟩ ⟨M⟩ = some ⟨⌊(100 * (M : ℚ)) / (B : ℚ)⌋⟩ ∧
    percent_relative ⟨B⟩ ⟨M⟩ = some ⟨Int.tdiv (100 * M) B⟩ := by
  have hw : wrap64 (100 * M) = 100 * M :=
    wrap64_of_representable _ (by omega) hrep
  have hfloor := tdiv_floor_rat (100 * M) B (by omega) hB
  rw [percent_relative_of_pos B M hB, hw]
  refine ⟨?_, rfl⟩
  rw [hfloor]
  push_cast
  rfl

/-- Witness of C1 at `B = 3`, `M = 7`: the floor of 700 / 3 is 233. -/
theorem percent_relative_floor_witness :
    percent_relative ⟨3⟩ ⟨7⟩ = some ⟨⌊(100 * ((7 : Int) : ℚ)) / ((3 : Int) : ℚ)⌋⟩ ∧
    percent_relative ⟨3⟩ ⟨7⟩ = some ⟨Int.tdiv (100 * 7) 3⟩ :=
  percent_relative_floor 3 7 (by decide) (by decide) (by decide)

/-- The tick count of a signed 64-bit difference stays in the signed 64-bit
range. -/
theorem wrap64_range (x : Int) :
    -9223372036854775808 ≤ wrap64 x ∧ wrap64 x ≤ 9223372036854775807 := by
  unfold wrap64
  omega

/-- A duration the timer produces, `duration_cast<milliseconds>(end - start)`,
is at most 9223372036854 ms in absolute value: the clock counts nanoseconds
in a signed 64-bit tick count. -/
theorem measured_duration_bound (end_ start : Int) :
    -9223372036854 ≤ (duration_cast_milliseconds (ssub64 end_ start)).count ∧
    (duration_cast_milliseconds (ssub64 end_ start)).count ≤ 9223372036854 := by
  have hr := wrap64_range (end_ - start)
  simp only [duration_cast_milliseconds, ssub64]
  generalize wrap64 (end_ - start) = t at hr
  rcases le_or_lt 0 t with ht | ht
  · rw [Int.tdiv_eq_ediv ht (by decide)]
    omega
  · have h1 : Int.tdiv t 1000000 = -((-t) / 1000000) := by
      rw [← Int.tdiv_eq_ediv (by omega) (by decide), Int.neg_tdiv]
      omega
    rw [h1]
    omega

/-- The values of `percent_relative` at `0`, `B` and `2 * B` wherever the
products are representable in the signed 64-bit tick count. -/
theorem percent_relative_fixed_points_of_representable (B : Int) (hB : 0 < B) :
    percent_relative ⟨B⟩ ⟨0⟩ = some ⟨0⟩ ∧
    (100 * B ≤ 9223372036854775807 → percent_relative ⟨B⟩ ⟨B⟩ = some ⟨100⟩) ∧
    (200 * B ≤ 9223372036854775807 → percent_relative ⟨B⟩ ⟨2 * B⟩ = some ⟨200⟩) := by
  have hne : B ≠ 0 := by omega
  refine ⟨?_, ?_, ?_⟩
  · rw [percent_relative_of_pos B 0 hB]
    simp [wrap64]
  · intro h
    rw [percent_relative_of_pos B B hB, wrap64_of_representable _ (by omega) h,
      Int.mul_tdiv_cancel 100 hne]
  · intro h
    have h200 : 100 * (2 * B) = 200 * B := by ring
    rw [percent_relative_of_pos B (2 * B) hB, h200,
      wrap64_of_representable _ (by omega) h, Int.mul_tdiv_cancel 200 hne]

/-- Monotonicity of `percent_relative` in its second argument wherever the
products are representable in the signed 64-bit tick count. -/
theorem percent_relative_monotone_of_representable (B M1 M2 : Int) (hB : 0 < B)
    (hle : M1 ≤ M2) (hlo : -9223372036854775808 ≤ 100 * M1)
    (hhi : 100 * M2 ≤ 9223372036854775807) :
    ∃ p1 p2 : milliseconds,
      percent_relative ⟨B⟩ ⟨M1⟩ = some p1 ∧ percent_relative ⟨B⟩ ⟨M2⟩ = some p2 ∧
      p1.count ≤ p2.count := by
  refine ⟨_, _, percent_relative_of_pos B M1 hB, percent_relative_of_pos B M2 hB, ?_⟩
  rw [wrap64_of_representable _ hlo (by omega), wrap64_of_representable _ (by omega) hhi]
  exact tdiv_mono_left _ _ _ hB (by omega)

/-- Claim C2.  For every baseline duration `B > 0` the program can measure,
that is `duration_cast<milliseconds>(end - start)` for any two clock readings,
`percent_relative(B, B)` is `100`, `percent_relative(B, 0)` is `0` and
`percent_relative(B, 2 * B)` is `200`. -/
theorem percent_relative_fixed_points (end_ start : Int)
    (hB : 0 < (duration_cast_milliseconds (ssub64 end_ start)).count) :
    percent_relative (duration_cast_milliseconds (ssub64 end_ start))
      (duration_cast_milliseconds (ssub64 end_ start)) = some ⟨100⟩ ∧
    percent_relative (duration_cast_milliseconds (ssub64 end_ start)) ⟨0⟩ = some ⟨0⟩ ∧
    percent_relative (duration_cast_milliseconds (ssub64 end_ start))
      ⟨2 * (duration_cast_milliseconds (ssub64 end_ start)).count⟩ = some ⟨200⟩ := by
  have hb := measured_duration_bound end_ start
  have h := percent_relative_fixed_points_of_representable
    (duration_cast_milliseconds (ssub64 end_ start)).count hB
  exact ⟨h.2.1 (by omega), h.1, h.2.2 (by omega)⟩

/-- Witness of C2: readings 7 ms apart, so `B = 7`. -/
theorem percent_relative_fixed_points_witness :
    (duration_cast_milliseconds (ssub64 7000000 0)).count = 7 ∧
    percent_relative (duration_cast_milliseconds (ssub64 7000000 0))
      (duration_cast_milliseconds (ssub64 7000000 0)) = some ⟨100⟩ ∧
    percent_relative (duration_cast_milliseconds (ssub64 7000000 0)) ⟨0⟩ = some ⟨0⟩ ∧
    percent_relative (duration_cast_milliseconds (ssub64 7000000 0))
      ⟨2 * (duration_cast_milliseconds (ssub64 7000000 0)).count⟩ = some ⟨200⟩ :=
  ⟨by decide, percent_relative_fixed_points 7000000 0 (by decide)⟩

/-- Claim C3.  For every fixed baseline `B > 0`, `percent_relative` is
monotonically non-decreasing in its second argument: for all measured
durations `M1 ≤ M2`, each `duration_cast<milliseconds>(end - start)` for two
clock readings, both percentages exist and
`percent_relative(B, M1) ≤ percent_relative(B, M2)`. -/
theorem percent_relative_monotone (B end1 start1 end2 start2 : Int) (hB : 0 < B)
    (hle : (duration_cast_milliseconds (ssub64 end1 start1)).count ≤
      (duration_cast_milliseconds (ssub64 end2 start2)).count) :
    ∃ p1 p2 : milliseconds,
      percent_relative ⟨B⟩ (duration_cast_milliseconds (ssub64 end1 start1)) = some p1 ∧
      percent_relative ⟨B⟩ (duration_cast_milliseconds (ssub64 end2 start2)) = some p2 ∧
      p1.count ≤ p2.count := by
  have h1 := measured_duration_bound end1 start1
  have h2 := measured_duration_bound end2 start2
  have hlo : -9223372036854775808 ≤
      100 * (duration_cast_milliseconds (ssub64 end1 start1)).count := by omega
  have hhi : 100 * (duration_cast_milliseconds (ssub64 end2 start2)).count ≤
      9223372036854775807 := by omega
  exact percent_relative_monotone_of_representable B _ _ hB hle hlo hhi

/-- Witness of C3 at `B = 3` with measured durations of 4 ms and 5 ms: the
percentages are 133 and 166. -/
theorem percent_relative_monotone_witness :
    ∃ p1 p2 : milliseconds,
      percent_relative ⟨3⟩ (duration_cast_milliseconds (ssub64 4000000 0)) = some p1 ∧
      percent_relative ⟨3⟩ (duration_cast_milliseconds (ssub64 9000000 4000000)) = some p2 ∧
      p1.count ≤ p2.count :=
  percent_relative_monotone 3 4000000 0 9000000 4000000 (by decide) (by decide)

/-! ## The result reporter -/

/-- Claim C4 as stated fails: the baseline line does not stop at `ms.`; a
blank follows it before the line feed. -/
theorem print_result_baseline_counterexample :
    (print_result ⟨0⟩ ⟨7⟩ "Vector" Operation.end_ true ⟨fun _ => 0, 0, ""⟩).map World.cout =
      some "Vector: Inserting at the end, elapsed time: 7ms. \n" ∧
    (print_result ⟨0⟩ ⟨7⟩ "Vector" Operation.end_ true ⟨fun _ => 0, 0, ""⟩).map World.cout ≠
      some (elapsed_text "Vector" "Inserting at the end" 7 ++ "\n") := by
  decide

/-- Claim C4, amended.  For every label, operation tag, measured duration `M`
and baseline duration `B` (zero included), `print_result` with the baseline
flag set writes exactly `<label>: <operation description>, elapsed time: <M>ms.`
followed by one blank and the line feed, and nothing else.  No percentage is
written and the call has a result even for `B = 0`, where `percent_relative`
has none: it is not evaluated. -/
theorem print_result_baseline (B M : Int) (label : String) (w : World) :
    print_result ⟨B⟩ ⟨M⟩ label Operation.begin true w =
      some { w with cout :=
        w.cout ++ (elapsed_text label "Inserting at the beginning" M ++ " ") ++ "\n" } ∧
    print_result ⟨B⟩ ⟨M⟩ label Operation.end_ true w =
      some { w with cout :=
        w.cout ++ (elapsed_text label "Inserting at the end" M ++ " ") ++ "\n" } ∧
    print_result ⟨B⟩ ⟨M⟩ label Operation.find true w =
      some { w with cout :=
        w.cout ++ (elapsed_text label "Finding 1~10,000" M ++ " ") ++ "\n" } ∧
    percent_relative ⟨0⟩ ⟨M⟩ = none := by
  refine ⟨?_, ?_, ?_, ?_⟩
  · simp only [print_result, elapsed_text, if_true, String.append_assoc]
    rfl
  · simp only [print_result, elapsed_text, if_true, String.append_assoc]
    rfl
  · simp only [print_result, elapsed_text, if_true, String.append_assoc]
    rfl
  · simp [percent_relative, sdiv64]

/-- Claim C5.  For every label, operation tag, baseline `B > 0` and measured
duration `M` (any tick count, so every `M ≥ 0`), `print_result` with the
baseline flag clear writes exactly one line,
`<label>: <operation description>, elapsed time: <M>ms. <P>% relative to vector's time.`
with `P = percent_relative(B, M)`, the description being
`Inserting at the beginning`, `Inserting at the end` or `Finding 1~10,000`. -/
theorem print_result_relative (B M : Int) (label : String) (w : World) (hB : 0 < B) :
    ∃ P : milliseconds, percent_relative ⟨B⟩ ⟨M⟩ = some P ∧
      print_result ⟨B⟩ ⟨M⟩ label Operation.begin false w =
        some { w with cout := w.cout ++
          (elapsed_text label "Inserting at the beginning" M ++ " " ++ percent_text P.count)
          ++ "\n" } ∧
      print_result ⟨B⟩ ⟨M⟩ label Operation.end_ false w =
        some { w with cout := w.cout ++
          (elapsed_text label "Inserting at the end" M ++ " " ++ percent_text P.count)
          ++ "\n" } ∧
      print_result ⟨B⟩ ⟨M⟩ label Operation.find false w =
        some { w with cout := w.cout ++
          (elapsed_text label "Finding 1~10,000" M ++ " " ++ percent_text P.count)
          ++ "\n" } := by
  refine ⟨_, percent_relative_of_pos B M hB, ?_, ?_, ?_⟩
  · simp only [print_result, percent_relative_of_pos B M hB, elapsed_text, percent_text,
      Option.map_some', String.append_assoc]
    rfl
  · simp only [print_result, percent_relative_of_pos B M hB, elapsed_text, percent_text,
      Option.map_some', String.append_assoc]
    rfl
  · simp only [print_result, percent_relative_of_pos B M hB, elapsed_text, percent_text,
      Option.map_some', String.append_assoc]
    rfl

/-- Witness of C5 at `B = 3`, `M = 7`, label `List`. -/
theorem print_result_relative_witness :
    ∃ P : milliseconds, percent_relative ⟨3⟩ ⟨7⟩ = some P ∧
      print_result ⟨3⟩ ⟨7⟩ "List" Operation.begin false ⟨fun _ => 0, 0, ""⟩ =
        some { (⟨fun _ => 0, 0, ""⟩ : World) with cout := "" ++
          (elapsed_text "List" "Inserting at the beginning" 7 ++ " " ++ percent_text P.count)
          ++ "\n" } ∧
      print_result ⟨3⟩ ⟨7⟩ "List" Operation.end_ false ⟨fun _ => 0, 0, ""⟩ =
        some { (⟨fun _ => 0, 0, ""⟩ : World) with cout := "" ++
          (elapsed_text "List" "Inserting at the end" 7 ++ " " ++ percent_text P.count)
          ++ "\n" } ∧
      print_result ⟨3⟩ ⟨7⟩ "List" Operation.find false ⟨fun _ => 0, 0, ""⟩ =
        some { (⟨fun _ => 0, 0, ""⟩ : World) with cout := "" ++
          (elapsed_text "List" "Finding 1~10,000" 7 ++ " " ++ percent_text P.count)
          ++ "\n" } :=
  print_result_relative 3 7 "List" ⟨fun _ => 0, 0, ""⟩ (by decide)

/-! ## The insertion benchmark -/

theorem my_insert_container {T : Type} [HasInsert T] (input : std_vector) (c : T)
    (position : Operation) (w : World) :
    (my_insert input c position w).2.1 =
      match position with
      | Operation.begin => input.data.foldl HasInsert.insert_begin c
      | Operation.end_ => input.data.foldl HasInsert.insert_end c
      | Operation.find => c := by
  cases position <;> rfl

theorem foldl_vector_insert_end (input : List Int) (c : std_vector) :
    input.foldl HasInsert.insert_end c = ⟨c.data ++ input⟩ := by
  induction input generalizing c with
  | nil => simp
  | cons x xs ih =>
    rw [List.foldl_cons, ih]
    simp [HasInsert.insert_end]

theorem foldl_vector_insert_begin (input : List Int) (c : std_vector) :
    input.foldl HasInsert.insert_begin c = ⟨input.reverse ++ c.data⟩ := by
  induction input generalizing c with
  | nil => simp
  | cons x xs ih =>
    rw [List.foldl_cons, ih]
    simp [HasInsert.insert_begin]

theorem foldl_list_insert_end (input : List Int) (c : std_list) :
    input.foldl HasInsert.insert_end c = ⟨c.data ++ input⟩ := by
  induction input generalizing c with
  | nil => simp
  | cons x xs ih =>
    rw [List.foldl_cons, ih]
    simp [HasInsert.insert_end]

theorem foldl_list_insert_begin (input : List Int) (c : std_list) :
    input.foldl HasInsert.insert_begin c = ⟨input.reverse ++ c.data⟩ := by
  induction input generalizing c with
  | nil => simp
  | cons x xs ih =>
    rw [List.foldl_cons, ih]
    simp [HasInsert.insert_begin]

theorem mem_ordered_insert (a x : Int) (l : List Int) :
    a ∈ ordered_insert x l ↔ a = x ∨ a ∈ l := by
  induction l with
  | nil => simp [ordered_insert]
  | cons y ys ih =>
    unfold ordered_insert
    split_ifs with h1 h2
    · simp
    · subst h2
      simp
    · simp [ih]
      tauto

theorem sorted_ordered_insert (x : Int) (l : List Int) (hl : l.Sorted (· < ·)) :
    (ordered_insert x l).Sorted (· < ·) := by
  induction l with
  | nil => simp [ordered_insert]
  | cons y ys ih =>
    have hys := List.sorted_cons.mp hl
    unfold ordered_insert
    split_ifs with h1 h2
    · refine List.sorted_cons.mpr ⟨?_, hl⟩
      intro b hb
      rcases List.mem_cons.mp hb with rfl | hb
      · exact h1
      · exact lt_trans h1 (hys.1 b hb)
    · exact hl
    · refine List.sorted_cons.mpr ⟨?_, ih hys.2⟩
      intro b hb
      rcases (mem_ordered_insert b x ys).mp hb with rfl | hb
      · omega
      · exact hys.1 b hb

/-- Inserting a whole dataset into a set, at either hint: the keys stay
ascending and are the old keys together with the dataset's. -/
theorem foldl_set_insert (input : List Int) (c : std_set) (hc : c.data.Sorted (· < ·)) :
    (input.foldl HasInsert.insert_end c).data.Sorted (· < ·) ∧
    (∀ a, a ∈ (input.foldl HasInsert.insert_end c).data ↔ a ∈ c.data ∨ a ∈ input) ∧
    input.foldl HasInsert.insert_begin c = input.foldl HasInsert.insert_end c := by
  induction input generalizing c with
  | nil => simp [hc]
  | cons x xs ih =>
    have h := ih ⟨ordered_insert x c.data⟩ (sorted_ordered_insert x c.data hc)
    simp only [List.foldl_cons, HasInsert.insert_end, HasInsert.insert_begin] at h ⊢
    refine ⟨h.1, ?_, h.2.2⟩
    intro a
    rw [h.2.1 a, mem_ordered_insert, List.mem_cons]
    tauto

/-- A dataset of distinct integers inserted into the empty set leaves a
permutation of the dataset. -/
theorem foldl_set_insert_perm (input : List Int) (hnd : input.Nodup) :
    (input.foldl HasInsert.insert_end (⟨[]⟩ : std_set)).data.Perm input := by
  have h := foldl_set_insert input ⟨[]⟩ List.sorted_nil
  refine (List.perm_ext_iff_of_nodup h.1.nodup hnd).mpr ?_
  intro a
  rw [h.2.1 a]
  simp

theorem foldl_unordered_set_insert (input : List Int) (c : std_unordered_set) :
    input.foldl HasInsert.insert_end c = ⟨c.data ∪ input.toFinset⟩ ∧
    input.foldl HasInsert.insert_begin c = ⟨c.data ∪ input.toFinset⟩ := by
  induction input generalizing c with
  | nil => simp
  | cons x xs ih =>
    have h := ih ⟨insert x c.data⟩
    simp only [List.foldl_cons, HasInsert.insert_end, HasInsert.insert_begin] at h ⊢
    rw [h.1]
    have he : insert x c.data ∪ xs.toFinset = c.data ∪ (x :: xs).toFinset := by
      ext a
      simp
    simp [he]

theorem one_to_length (n : Nat) : (one_to n).length = n := by
  simp [one_to]

theorem one_to_nodup (n : Nat) : (one_to n).Nodup :=
  (List.nodup_range' 1 n).map Int.ofNat_injective

/-- Claim C6.  For every dataset of distinct integers, `my_insert` at the end
of an empty vector, list, set or unordered set leaves a container whose
elements, as a multiset, are the dataset's; when the dataset is a permutation
of 1..100000 the container holds exactly 100,000 elements. -/
theorem my_insert_end_elements (input : List Int) (w : World) (hnd : input.Nodup) :
    (HasElements.elements (my_insert ⟨input⟩ (⟨[]⟩ : std_vector) Operation.end_ w).2.1
        = (input : Multiset Int) ∧
     HasElements.elements (my_insert ⟨input⟩ (⟨[]⟩ : std_list) Operation.end_ w).2.1
        = (input : Multiset Int) ∧
     HasElements.elements (my_insert ⟨input⟩ (⟨[]⟩ : std_set) Operation.end_ w).2.1
        = (input : Multiset Int) ∧
     HasElements.elements (my_insert ⟨input⟩ (⟨∅⟩ : std_unordered_set) Operation.end_ w).2.1
        = (input : Multiset Int)) ∧
    (input.Perm (one_to 100000) →
     Multiset.card
        (HasElements.elements (my_insert ⟨input⟩ (⟨[]⟩ : std_vector) Operation.end_ w).2.1)
        = 100000 ∧
     Multiset.card
        (HasElements.elements (my_insert ⟨input⟩ (⟨[]⟩ : std_list) Operation.end_ w).2.1)
        = 100000 ∧
     Multiset.card
        (HasElements.elements (my_insert ⟨input⟩ (⟨[]⟩ : std_set) Operation.end_ w).2.1)
        = 100000 ∧
     Multiset.card
        (HasElements.elements
          (my_insert ⟨input⟩ (⟨∅⟩ : std_unordered_set) Operation.end_ w).2.1)
        = 100000) := by
  have hv : HasElements.elements
      (my_insert ⟨input⟩ (⟨[]⟩ : std_vector) Operation.end_ w).2.1 = (input : Multiset Int) := by
    rw [my_insert_container]
    simp [foldl_vector_insert_end, HasElements.elements]
  have hl : HasElements.elements
      (my_insert ⟨input⟩ (⟨[]⟩ : std_list) Operation.end_ w).2.1 = (input : Multiset Int) := by
    rw [my_insert_container]
    simp [foldl_list_insert_end, HasElements.elements]
  have hs : HasElements.elements
      (my_insert ⟨input⟩ (⟨[]⟩ : std_set) Operation.end_ w).2.1 = (input : Multiset Int) := by
    rw [my_insert_container]
    exact Multiset.coe_eq_coe.mpr (foldl_set_insert_perm input hnd)
  have hu : HasElements.elements
      (my_insert ⟨input⟩ (⟨∅⟩ : std_unordered_set) Operation.end_ w).2.1
        = (input : Multiset Int) := by
    rw [my_insert_container]
    simp only [(foldl_unordered_set_insert input ⟨∅⟩).1, HasElements.elements]
    rw [Finset.empty_union, List.toFinset_val, List.dedup_eq_self.mpr hnd]
  refine ⟨⟨hv, hl, hs, hu⟩, ?_⟩
  intro hperm
  have hlen : input.length = 100000 := by
    rw [hperm.length_eq, one_to_length]
  rw [hv, hl, hs, hu]
  simp [hlen]

/-- Witness of C6 at the dataset 100000, 99999, ..., 1. -/
theorem my_insert_end_elements_witness :
    (HasElements.elements
        (my_insert ⟨(one_to 100000).reverse⟩ (⟨[]⟩ : std_vector) Operation.end_
          ⟨fun _ => 0, 0, ""⟩).2.1
        = ((one_to 100000).reverse : Multiset Int) ∧
     HasElements.elements
        (my_insert ⟨(one_to 100000).reverse⟩ (⟨[]⟩ : std_list) Operation.end_
          ⟨fun _ => 0, 0, ""⟩).2.1
        = ((one_to 100000).reverse : Multiset Int) ∧
     HasElements.elements
        (my_insert ⟨(one_to 100000).reverse⟩ (⟨[]⟩ : std_set) Operation.end_
          ⟨fun _ => 0, 0, ""⟩).2.1
        = ((one_to 100000).reverse : Multiset Int) ∧
     HasElements.elements
        (my_insert ⟨(one_to 100000).reverse⟩ (⟨∅⟩ : std_unordered_set) Operation.end_
          ⟨fun _ => 0, 0, ""⟩).2.1
        = ((one_to 100000).reverse : Multiset Int)) ∧
    (Multiset.card
        (HasElements.elements
          (my_insert ⟨(one_to 100000).reverse⟩ (⟨[]⟩ : std_vector) Operation.end_
            ⟨fun _ => 0, 0, ""⟩).2.1)
        = 100000 ∧
     Multiset.card
        (HasElements.elements
          (my_insert ⟨(one_to 100000).reverse⟩ (⟨[]⟩ : std_list) Operation.end_
            ⟨fun _ => 0, 0, ""⟩).2.1)
        = 100000 ∧
     Multiset.card
        (HasElements.elements
          (my_insert ⟨(one_to 100000).reverse⟩ (⟨[]⟩ : std_set) Operation.end_
            ⟨fun _ => 0, 0, ""⟩).2.1)
        = 100000 ∧
     Multiset.card
        (HasElements.elements
          (my_insert ⟨(one_to 100000).reverse⟩ (⟨∅⟩ : std_unordered_set) Operation.end_
            ⟨fun _ => 0, 0, ""⟩).2.1)
        = 100000) :=
  ⟨(my_insert_end_elements (one_to 100000).reverse ⟨fun _ => 0, 0, ""⟩
      (List.nodup_reverse.mpr (one_to_nodup 100000))).1,
   (my_insert_end_elements (one_to 100000).reverse ⟨fun _ => 0, 0, ""⟩
      (List.nodup_reverse.mpr (one_to_nodup 100000))).2 (List.reverse_perm _)⟩

/-- Claim C7.  For every dataset and an empty vector or list as target,
`my_insert` at the beginning leaves exactly the dataset in reverse order, and
`my_insert` at the end leaves it in its own order. -/
theorem my_insert_order (input : List Int) (w : World) :
    (my_insert ⟨input⟩ (⟨[]⟩ : std_vector) Operation.begin w).2.1 = ⟨input.reverse⟩ ∧
    (my_insert ⟨input⟩ (⟨[]⟩ : std_list) Operation.begin w).2.1 = ⟨input.reverse⟩ ∧
    (my_insert ⟨input⟩ (⟨[]⟩ : std_vector) Operation.end_ w).2.1 = ⟨input⟩ ∧
    (my_insert ⟨input⟩ (⟨[]⟩ : std_list) Operation.end_ w).2.1 = ⟨input⟩ := by
  refine ⟨?_, ?_, ?_, ?_⟩
  · rw [my_insert_container]
    simp [foldl_vector_insert_begin]
  · rw [my_insert_container]
    simp [foldl_list_insert_begin]
  · rw [my_insert_container]
    simp [foldl_vector_insert_end]
  · rw [my_insert_container]
    simp [foldl_list_insert_end]

/-! ## The lookup benchmarks -/

/-- A counted loop runs its body once for each index from the first to the
last, in ascending order. -/
theorem for_loop_eq_foldl {σ : Type} (body : Int → σ → σ) (n : Nat) (first : Int) (s : σ) :
    for_loop (first + n - 1) body first s =
      (List.range n).foldl (fun s (k : Nat) => body (first + (k : Int)) s) s := by
  induction n generalizing first s with
  | zero =>
    rw [for_loop]
    simp
  | succ n ih =>
    rw [for_loop]
    have hle : first ≤ first + ((n + 1 : Nat) : Int) - 1 := by omega
    have hlast : first + ((n + 1 : Nat) : Int) - 1 = (first + 1) + (n : Int) - 1 := by omega
    rw [if_pos hle, hlast, ih (first + 1) (body first s), List.range_succ_eq_map,
      List.foldl_cons, List.foldl_map]
    simp only [Nat.cast_zero, add_zero, Nat.cast_succ]
    congr 1
    funext s k
    congr 1
    omega

theorem foldl_append_singleton {α β : Type} (g : α → β) (l : List α) (s : List β) :
    l.foldl (fun acc k => acc ++ [g k]) s = s ++ l.map g := by
  induction l generalizing s with
  | nil => simp
  | cons x xs ih => simp [ih]

/-- The loop of the lookup benchmarks, whatever each lookup returns: one
query per key 1, 2, ..., 10000. -/
theorem lookup_loop_queries (hit : Int → Bool) :
    for_loop 10000 (fun i (queries : List Query) => queries ++ [⟨i, hit i⟩]) 1 [] =
      (one_to 10000).map fun i => ⟨i, hit i⟩ := by
  have h := for_loop_eq_foldl
    (fun i (queries : List Query) => queries ++ [⟨i, hit i⟩]) 10000 1 []
  have h1 : (1 : Int) + ((10000 : Nat) : Int) - 1 = 10000 := by norm_num
  rw [h1] at h
  rw [h, foldl_append_singleton (fun k : Nat => (⟨1 + (k : Int), hit (1 + (k : Int))⟩ : Query))]
  simp only [one_to, List.nil_append, List.map_map, List.range'_eq_map_range]
  apply List.map_congr_left
  intro k _
  simp [Function.comp]

theorem v_l_find_queries {T : Type} [HasRange T] (c : T) (w : World) :
    (v_l_find c w).queries = (one_to 10000).map fun i =>
      ⟨i, decide (std_find (HasRange.range c) i ≠ (HasRange.range c).length)⟩ :=
  lookup_loop_queries _

theorem s_uos_find_queries {T : Type} [HasFind T] (c : T) (w : World) :
    (s_uos_find c w).queries = (one_to 10000).map fun i => ⟨i, HasFind.find c i⟩ :=
  lookup_loop_queries _

theorem keys_of_queries (hit : Int → Bool) (l : List Int) :
    (l.map fun i => (⟨i, hit i⟩ : Query)).map Query.key = l := by
  induction l with
  | nil => rfl
  | cons x xs ih => simp [ih]

/-- Claim C8.  For every vector, list, set and unordered set, whatever it
holds, `v_l_find` and `s_uos_find` issue exactly 10,000 lookups, their keys
being 1, 2, ..., 10000 in this order, and leave the container as it was. -/
theorem lookup_queries (cv : std_vector) (cl : std_list) (cs : std_set)
    (cu : std_unordered_set) (w : World) :
    ((v_l_find cv w).queries.map Query.key = one_to 10000 ∧
      (v_l_find cv w).queries.length = 10000 ∧ (v_l_find cv w).stlcontainer = cv) ∧
    ((v_l_find cl w).queries.map Query.key = one_to 10000 ∧
      (v_l_find cl w).queries.length = 10000 ∧ (v_l_find cl w).stlcontainer = cl) ∧
    ((s_uos_find cs w).queries.map Query.key = one_to 10000 ∧
      (s_uos_find cs w).queries.length = 10000 ∧ (s_uos_find cs w).stlcontainer = cs) ∧
    ((s_uos_find cu w).queries.map Query.key = one_to 10000 ∧
      (s_uos_find cu w).queries.length = 10000 ∧ (s_uos_find cu w).stlcontainer = cu) := by
  refine ⟨⟨?_, ?_, rfl⟩, ⟨?_, ?_, rfl⟩, ⟨?_, ?_, rfl⟩, ⟨?_, ?_, rfl⟩⟩
  · rw [v_l_find_queries, keys_of_queries]
  · rw [v_l_find_queries, List.length_map, one_to_length]
  · rw [v_l_find_queries, keys_of_queries]
  · rw [v_l_find_queries, List.length_map, one_to_length]
  · rw [s_uos_find_queries, keys_of_queries]
  · rw [s_uos_find_queries, List.length_map, one_to_length]
  · rw [s_uos_find_queries, keys_of_queries]
  · rw [s_uos_find_queries, List.length_map, one_to_length]

/-! ## The driver -/

theorem my_insert_end_eq {T : Type} [HasInsert T] (input : std_vector) (c : T)
    (clock : Nat → Int) (r : Nat) (out : String) :
    my_insert input c Operation.end_ ⟨clock, r, out⟩ =
      (elapsed_between clock r, input.data.foldl HasInsert.insert_end c, ⟨clock, r + 2, out⟩) :=
  rfl

theorem my_insert_begin_eq {T : Type} [HasInsert T] (input : std_vector) (c : T)
    (clock : Nat → Int) (r : Nat) (out : String) :
    my_insert input c Operation.begin ⟨clock, r, out⟩ =
      (elapsed_between clock r, input.data.foldl HasInsert.insert_begin c,
        ⟨clock, r + 2, out⟩) :=
  rfl

theorem v_l_find_elapsed {T : Type} [HasRange T] (c : T)
    (clock : Nat → Int) (r : Nat) (out : String) :
    (v_l_find c ⟨clock, r, out⟩).elapsed = elapsed_between clock r ∧
    (v_l_find c ⟨clock, r, out⟩).world = ⟨clock, r + 2, out⟩ ∧
    (v_l_find c ⟨clock, r, out⟩).stlcontainer = c :=
  ⟨rfl, rfl, rfl⟩

theorem s_uos_find_elapsed {T : Type} [HasFind T] (c : T)
    (clock : Nat → Int) (r : Nat) (out : String) :
    (s_uos_find c ⟨clock, r, out⟩).elapsed = elapsed_between clock r ∧
    (s_uos_find c ⟨clock, r, out⟩).world = ⟨clock, r + 2, out⟩ ∧
    (s_uos_find c ⟨clock, r, out⟩).stlcontainer = c :=
  ⟨rfl, rfl, rfl⟩

theorem print_result_vector (B M : milliseconds) (label : String) (operation : Operation)
    (w : World) :
    print_result B M label operation true w =
      some { w with cout := w.cout ++ (baseline_line label operation M ++ "\n") } := by
  cases operation <;>
    simp only [print_result, baseline_line, elapsed_text, operation_description, if_true,
      String.append_assoc] <;> rfl

theorem print_result_other (B M : milliseconds) (label : String) (operation : Operation)
    (w : World) (hB : 0 < B.count) :
    print_result B M label operation false w =
      some { w with cout := w.cout ++ (relative_line label operation B M ++ "\n") } := by
  have hp : percent_relative B M = some ⟨Int.tdiv (wrap64 (100 * M.count)) B.count⟩ :=
    percent_relative_of_pos B.count M.count hB
  cases operation <;>
    simp only [print_result, relative_line, elapsed_text, percent_text, percent_count,
      operation_description, hp, Option.map_some', String.append_assoc] <;> rfl

theorem lines_text_append (l1 l2 : List String) :
    lines_text (l1 ++ l2) = lines_text l1 ++ lines_text l2 := by
  induction l1 with
  | nil => simp [lines_text]
  | cons x xs ih => simp [lines_text, ih, String.append_assoc]

theorem main_insert_end_eq (v : std_vector) (clock : Nat → Int) (r : Nat) (out : String)
    (h : 0 < (elapsed_between clock r).count) :
    main_insert_end v ⟨clock, r, out⟩ =
      some (⟨v.data.foldl HasInsert.insert_end ⟨[]⟩, v.data.foldl HasInsert.insert_end ⟨[]⟩,
              v.data.foldl HasInsert.insert_end ⟨[]⟩, v.data.foldl HasInsert.insert_end ⟨∅⟩⟩,
            ⟨clock, r + 8, out ++ lines_text (phase_lines Operation.end_
              (elapsed_between clock r) (elapsed_between clock (r + 2))
              (elapsed_between clock (r + 4)) (elapsed_between clock (r + 6)))⟩) := by
  simp only [main_insert_end, my_insert_end_eq, print_result_vector, print_result_other _ _ _ _ _ h,
    Option.bind_eq_bind, Option.some_bind, Option.pure_def, bind_pure_comp, lines_text,
    phase_lines, String.append_assoc, String.append_empty]

theorem main_insert_begin_eq (v : std_vector) (c : Containers) (clock : Nat → Int) (r : Nat)
    (out : String) (h : 0 < (elapsed_between clock r).count) :
    main_insert_begin v c ⟨clock, r, out⟩ =
      some (⟨v.data.foldl HasInsert.insert_begin ⟨[]⟩,
              v.data.foldl HasInsert.insert_begin ⟨[]⟩,
              v.data.foldl HasInsert.insert_begin ⟨[]⟩,
              v.data.foldl HasInsert.insert_begin ⟨∅⟩⟩,
            ⟨clock, r + 8, out ++ lines_text (phase_lines Operation.begin
              (elapsed_between clock r) (elapsed_between clock (r + 2))
              (elapsed_between clock (r + 4)) (elapsed_between clock (r + 6)))⟩) := by
  simp only [main_insert_begin, my_insert_begin_eq, print_result_vector,
    print_result_other _ _ _ _ _ h, std_vector.clear, std_list.clear, std_set.clear,
    std_unordered_set.clear,
    Option.bind_eq_bind, Option.some_bind, Option.pure_def, bind_pure_comp, lines_text,
    phase_lines, String.append_assoc, String.append_empty]

theorem main_find_eq (c : Containers) (clock : Nat → Int) (r : Nat)
    (out : String) (h : 0 < (elapsed_between clock r).count) :
    main_find c ⟨clock, r, out⟩ =
      some (c,
            ⟨clock, r + 8, out ++ lines_text (phase_lines Operation.find
              (elapsed_between clock r) (elapsed_between clock (r + 2))
              (elapsed_between clock (r + 4)) (elapsed_between clock (r + 6)))⟩) := by
  simp only [main_find, v_l_find_elapsed, s_uos_find_elapsed, print_result_vector,
    print_result_other _ _ _ _ _ h,
    Option.bind_eq_bind, Option.some_bind, Option.pure_def, bind_pure_comp, lines_text,
    phase_lines, String.append_assoc, String.append_empty]

/-- The run of `main` when the vector's measurement is positive in each of
the three phases. -/
theorem main_eq (shuffle : List Int → List Int) (w : World)
    (h0 : 0 < (measurement w 0).count) (h4 : 0 < (measurement w 4).count)
    (h8 : 0 < (measurement w 8).count) :
    main shuffle w =
      some (0,
        ⟨(main_dataset shuffle).data.foldl HasInsert.insert_begin ⟨[]⟩,
         (main_dataset shuffle).data.foldl HasInsert.insert_begin ⟨[]⟩,
         (main_dataset shuffle).data.foldl HasInsert.insert_begin ⟨[]⟩,
         (main_dataset shuffle).data.foldl HasInsert.insert_begin ⟨∅⟩⟩,
        ⟨w.clock, w.reads + 24, w.cout ++ lines_text (driver_lines (measurement w))⟩) := by
  obtain ⟨clock, r, out⟩ := w
  simp only [measurement, Nat.mul_zero, Nat.add_zero, Nat.reduceMul] at h0 h4 h8
  have h8' : 0 < (elapsed_between clock (r + 8 + 8)).count := h8
  simp only [main, main_insert_end_eq _ _ _ _ h0, cout_endl, Option.bind_eq_bind,
    Option.some_bind, main_insert_begin_eq _ _ _ _ _ h4, main_find_eq _ _ _ _ h8',
    Option.pure_def, driver_lines, lines_text_append, lines_text, measurement,
    String.append_assoc, String.append_empty, String.empty_append, Nat.add_assoc,
    Nat.reduceAdd, Nat.reduceMul, Nat.add_zero]

/-! ## Numerals contain no line feed -/

theorem digitChar_ne_line_feed (m : Nat) (h : m < 10) : Nat.digitChar m ≠ '\n' := by
  interval_cases m <;> decide

theorem toDigitsCore_no_line_feed (fuel n : Nat) (ds : List Char)
    (hds : ∀ c ∈ ds, c ≠ '\n') : ∀ c ∈ Nat.toDigitsCore 10 fuel n ds, c ≠ '\n' := by
  induction fuel generalizing n ds with
  | zero => simpa [Nat.toDigitsCore] using hds
  | succ fuel ih =>
    have hcons : ∀ c ∈ Nat.digitChar (n % 10) :: ds, c ≠ '\n' := by
      intro c hc
      rcases List.mem_cons.mp hc with rfl | hc
      · exact digitChar_ne_line_feed _ (Nat.mod_lt _ (by decide))
      · exact hds c hc
    simp only [Nat.toDigitsCore]
    split_ifs
    · exact hcons
    · exact ih _ _ hcons

theorem nat_repr_no_line_feed (n : Nat) : ∀ c ∈ (Nat.repr n).toList, c ≠ '\n' := by
  intro c hc
  exact toDigitsCore_no_line_feed _ _ [] (by simp) c
    (by simpa [Nat.repr, Nat.toDigits] using hc)

theorem show_count_no_line_feed (n : Int) : ∀ c ∈ (show_count n).toList, c ≠ '\n' := by
  intro c hc
  cases n with
  | ofNat m => exact nat_repr_no_line_feed m c hc
  | negSucc m =>
    have h : show_count (Int.negSucc m) = "-" ++ Nat.repr (m + 1) := rfl
    rw [h, String.toList, String.data_append] at hc
    rcases List.mem_append.mp hc with h1 | h1
    · have hminus : c = '-' := by simpa using h1
      rw [hminus]
      decide
    · exact nat_repr_no_line_feed _ c h1

theorem mem_toList_append (c : Char) (a b : String) :
    c ∈ (a ++ b).toList ↔ c ∈ a.toList ∨ c ∈ b.toList := by
  simp [String.toList, String.data_append]

theorem elapsed_text_no_line_feed (label description : String) (M : Int)
    (hl : '\n' ∉ label.toList) (hd : '\n' ∉ description.toList) :
    '\n' ∉ (elapsed_text label description M).toList := by
  intro h
  simp only [elapsed_text, mem_toList_append] at h
  rcases h with ((((h | h) | h) | h) | h) | h
  · exact hl h
  · revert h
    decide
  · exact hd h
  · revert h
    decide
  · exact show_count_no_line_feed M _ h rfl
  · revert h
    decide

theorem percent_text_no_line_feed (P : Int) : '\n' ∉ (percent_text P).toList := by
  intro h
  simp only [percent_text, mem_toList_append] at h
  rcases h with h | h
  · exact show_count_no_line_feed P _ h rfl
  · revert h
    decide

theorem operation_description_no_line_feed (operation : Operation) :
    '\n' ∉ (operation_description operation).toList := by
  cases operation <;> decide

theorem baseline_line_no_line_feed (label : String) (operation : Operation) (M : milliseconds)
    (hl : '\n' ∉ label.toList) : '\n' ∉ (baseline_line label operation M).toList := by
  intro h
  simp only [baseline_line, mem_toList_append] at h
  rcases h with h | h
  · exact elapsed_text_no_line_feed _ _ _ hl (operation_description_no_line_feed operation) h
  · revert h
    decide

theorem relative_line_no_line_feed (label : String) (operation : Operation)
    (B M : milliseconds) (hl : '\n' ∉ label.toList) :
    '\n' ∉ (relative_line label operation B M).toList := by
  intro h
  simp only [relative_line, mem_toList_append] at h
  rcases h with (h | h) | h
  · exact elapsed_text_no_line_feed _ _ _ hl (operation_description_no_line_feed operation) h
  · revert h
    decide
  · exact percent_text_no_line_feed _ h

theorem phase_lines_no_line_feed (operation : Operation) (mv ml ms mu : milliseconds) :
    ∀ line ∈ phase_lines operation mv ml ms mu, '\n' ∉ line.toList := by
  intro line hline
  simp only [phase_lines, List.mem_cons, List.mem_singleton, List.not_mem_nil, or_false] at hline
  rcases hline with rfl | rfl | rfl | rfl
  · exact baseline_line_no_line_feed _ _ _ (by decide)
  · exact relative_line_no_line_feed _ _ _ _ (by decide)
  · exact relative_line_no_line_feed _ _ _ _ (by decide)
  · exact relative_line_no_line_feed _ _ _ _ (by decide)

theorem driver_lines_no_line_feed (m : Nat → milliseconds) :
    ∀ line ∈ driver_lines m, '\n' ∉ line.toList := by
  intro line hline
  simp only [driver_lines, List.mem_append, List.mem_singleton] at hline
  rcases hline with (((h | h) | h) | h) | h
  · exact phase_lines_no_line_feed _ _ _ _ _ line h
  · rw [h]
    decide
  · exact phase_lines_no_line_feed _ _ _ _ _ line h
  · rw [h]
    decide
  · exact phase_lines_no_line_feed _ _ _ _ _ line h

theorem percent_count_of_pos (B M : milliseconds) (hB : 0 < B.count) :
    percent_relative B M = some ⟨percent_count B M⟩ := by
  have h := percent_relative_of_pos B.count M.count hB
  have hp : percent_relative B M = some ⟨Int.tdiv (wrap64 (100 * M.count)) B.count⟩ := h
  simp [percent_count, hp]

/-- Claim C9.  Whatever the shuffle and the clock, when the vector's measured
duration is positive in each of the three phases, `main` returns 0 and has
written exactly 14 lines, none containing a line feed of its own: the lines
for inserting at the end for Vector, List, Set and Unordered Set, an empty
line, the lines for inserting at the beginning for the same four labels, an
empty line, and the lines for the lookup for the same four labels.  The three
Vector lines end after the elapsed time; the other nine carry the percentage
`percent_relative` returns against the vector's duration of the same phase. -/
theorem main_output (shuffle : List Int → List Int) (w : World)
    (h0 : 0 < (measurement w 0).count) (h4 : 0 < (measurement w 4).count)
    (h8 : 0 < (measurement w 8).count) :
    ∃ (c : Containers) (w' : World) (lines : List String),
      main shuffle w = some (0, c, w') ∧
      w'.cout = w.cout ++ lines_text lines ∧
      lines.length = 14 ∧
      (∀ line ∈ lines, '\n' ∉ line.toList) ∧
      lines =
        [elapsed_text "Vector" "Inserting at the end" (measurement w 0).count ++ " ",
         elapsed_text "List" "Inserting at the end" (measurement w 1).count ++ " " ++
           percent_text (percent_count (measurement w 0) (measurement w 1)),
         elapsed_text "Set" "Inserting at the end" (measurement w 2).count ++ " " ++
           percent_text (percent_count (measurement w 0) (measurement w 2)),
         elapsed_text "Unordered Set" "Inserting at the end" (measurement w 3).count ++ " " ++
           percent_text (percent_count (measurement w 0) (measurement w 3)),
         "",
         elapsed_text "Vector" "Inserting at the beginning" (measurement w 4).count ++ " ",
         elapsed_text "List" "Inserting at the beginning" (measurement w 5).count ++ " " ++
           percent_text (percent_count (measurement w 4) (measurement w 5)),
         elapsed_text "Set" "Inserting at the beginning" (measurement w 6).count ++ " " ++
           percent_text (percent_count (measurement w 4) (measurement w 6)),
         elapsed_text "Unordered Set" "Inserting at the beginning" (measurement w 7).count
           ++ " " ++ percent_text (percent_count (measurement w 4) (measurement w 7)),
         "",
         elapsed_text "Vector" "Finding 1~10,000" (measurement w 8).count ++ " ",
         elapsed_text "List" "Finding 1~10,000" (measurement w 9).count ++ " " ++
           percent_text (percent_count (measurement w 8) (measurement w 9)),
         elapsed_text "Set" "Finding 1~10,000" (measurement w 10).count ++ " " ++
           percent_text (percent_count (measurement w 8) (measurement w 10)),
         elapsed_text "Unordered Set" "Finding 1~10,000" (measurement w 11).count ++ " " ++
           percent_text (percent_count (measurement w 8) (measurement w 11))] ∧
      (∀ M, percent_relative (measurement w 0) M =
        some ⟨percent_count (measurement w 0) M⟩) ∧
      (∀ M, percent_relative (measurement w 4) M =
        some ⟨percent_count (measurement w 4) M⟩) ∧
      (∀ M, percent_relative (measurement w 8) M =
        some ⟨percent_count (measurement w 8) M⟩) :=
  ⟨_, _, driver_lines (measurement w), main_eq shuffle w h0 h4 h8, rfl, rfl,
    driver_lines_no_line_feed _, rfl,
    fun M => percent_count_of_pos _ M h0, fun M => percent_count_of_pos _ M h4,
    fun M => percent_count_of_pos _ M h8⟩

/-- Witness of C9: with no shuffling and the clock of `ticking_world`, the
text written is the fourteen lines below. -/
theorem main_output_witness :
    ∃ (c : Containers) (w' : World),
      main (fun v => v) ticking_world = some (0, c, w') ∧
      w'.cout = lines_text
        ["Vector: Inserting at the end, elapsed time: 1ms. ",
         "List: Inserting at the end, elapsed time: 5ms. 500% relative to vector's time.",
         "Set: Inserting at the end, elapsed time: 9ms. 900% relative to vector's time.",
         "Unordered Set: Inserting at the end, elapsed time: 13ms. 1300% relative to vector's time.",
         "",
         "Vector: Inserting at the beginning, elapsed time: 17ms. ",
         "List: Inserting at the beginning, elapsed time: 21ms. 123% relative to vector's time.",
         "Set: Inserting at the beginning, elapsed time: 25ms. 147% relative to vector's time.",
         "Unordered Set: Inserting at the beginning, elapsed time: 29ms. 170% relative to vector's time.",
         "",
         "Vector: Finding 1~10,000, elapsed time: 33ms. ",
         "List: Finding 1~10,000, elapsed time: 37ms. 112% relative to vector's time.",
         "Set: Finding 1~10,000, elapsed time: 41ms. 124% relative to vector's time.",
         "Unordered Set: Finding 1~10,000, elapsed time: 45ms. 136% relative to vector's time."] := by
  obtain ⟨c, w', lines, hmain, hcout, -, -, hlines, -⟩ :=
    main_output (fun v => v) ticking_world (by decide) (by decide) (by decide)
  refine ⟨c, w', hmain, ?_⟩
  rw [hcout, hlines]
  rfl

/-! ## The containers of the lookup phase -/

theorem one_to_sorted (n : Nat) : (one_to n).Sorted (· < ·) := by
  unfold one_to
  exact List.Pairwise.map Int.ofNat (fun a b hab => Int.ofNat_lt.mpr hab)
    (List.pairwise_lt_range' 1 n)

theorem mem_one_to (n : Nat) (x : Int) : x ∈ one_to n ↔ 1 ≤ x ∧ x ≤ n := by
  simp only [one_to, List.mem_map, List.mem_range'_1]
  constructor
  · rintro ⟨k, ⟨h1, h2⟩, rfl⟩
    simp only [Int.ofNat_eq_coe]
    omega
  · intro h
    refine ⟨x.toNat, ⟨by omega, by omega⟩, ?_⟩
    simp only [Int.ofNat_eq_coe]
    omega

theorem foldl_push_back (g : Nat → Int) (l : List Nat) (v : std_vector) :
    l.foldl (fun v k => std_vector.push_back v (g k)) v = ⟨v.data ++ l.map g⟩ := by
  induction l generalizing v with
  | nil => simp
  | cons x xs ih =>
    rw [List.foldl_cons, ih]
    simp [std_vector.push_back]

theorem map_range_one_to (n : Nat) :
    (List.range n).map (fun k : Nat => 1 + (k : Int)) = one_to n := by
  simp only [one_to, List.range'_eq_map_range, List.map_map]
  apply List.map_congr_left
  intro k _
  simp [Function.comp]

/-- The loop that fills the dataset: pushing 1 to `n` in ascending order. -/
theorem push_back_loop (n : Nat) :
    for_loop (n : Int) (fun i (v : std_vector) => std_vector.push_back v i) 1 ⟨[]⟩ =
      ⟨one_to n⟩ := by
  have h := for_loop_eq_foldl (fun i (v : std_vector) => std_vector.push_back v i) n 1 ⟨[]⟩
  have h1 : (1 : Int) + (n : Int) - 1 = (n : Int) := by omega
  rw [h1, foldl_push_back (fun k : Nat => 1 + (k : Int)), map_range_one_to] at h
  rw [h, List.nil_append]

/-- The dataset of `main` is the shuffle of 1, 2, ..., 100000. -/
theorem main_dataset_eq (shuffle : List Int → List Int) :
    main_dataset shuffle = ⟨shuffle (one_to 100000)⟩ := by
  have h := push_back_loop 100000
  have hc : ((100000 : Nat) : Int) = (100000 : Int) := by norm_num
  rw [hc] at h
  simp only [main_dataset, h]

/-- A permutation of 1..n inserted into the empty set, at either hint, leaves
the keys 1, 2, ..., n. -/
theorem foldl_set_insert_one_to (input : List Int) (n : Nat) (hperm : input.Perm (one_to n)) :
    input.foldl HasInsert.insert_begin (⟨[]⟩ : std_set) = ⟨one_to n⟩ := by
  have h := foldl_set_insert input ⟨[]⟩ List.sorted_nil
  rw [h.2.2]
  have hnd : input.Nodup := hperm.nodup_iff.mpr (one_to_nodup n)
  have hp := (foldl_set_insert_perm input hnd).trans hperm
  have heq := List.eq_of_perm_of_sorted hp h.1 (one_to_sorted n)
  cases hres : input.foldl HasInsert.insert_end (⟨[]⟩ : std_set) with
  | mk data =>
    rw [hres] at heq
    exact congrArg std_set.mk heq

theorem main_find_containers (c c' : Containers) (w w' : World)
    (h : main_find c w = some (c', w')) : c' = c := by
  simp only [main_find, Option.bind_eq_bind, Option.pure_def, Option.bind_eq_some] at h
  obtain ⟨_, _, _, _, _, _, _, _, h⟩ := h
  simp only [Option.some.injEq, Prod.mk.injEq] at h
  rw [← h.1]
  rfl

theorem my_insert_begin_at {T : Type} [HasInsert T] (input : std_vector) (c : T)
    (w : World) :
    my_insert input c Operation.begin w =
      (elapsed_between w.clock w.reads, input.data.foldl HasInsert.insert_begin c,
        ⟨w.clock, w.reads + 2, w.cout⟩) :=
  rfl

/-- Whenever the second phase of `main` completes, its containers are the
dataset inserted at the beginning of the cleared containers, whatever the
durations measured. -/
theorem main_insert_begin_containers (v : std_vector) (c0 c : Containers) (w w1 : World)
    (h : main_insert_begin v c0 w = some (c, w1)) :
    c = ⟨v.data.foldl HasInsert.insert_begin ⟨[]⟩, v.data.foldl HasInsert.insert_begin ⟨[]⟩,
         v.data.foldl HasInsert.insert_begin ⟨[]⟩, v.data.foldl HasInsert.insert_begin ⟨∅⟩⟩ := by
  simp only [main_insert_begin, my_insert_begin_at, Option.bind_eq_bind, Option.pure_def,
    Option.bind_eq_some, std_vector.clear, std_list.clear, std_set.clear,
    std_unordered_set.clear] at h
  obtain ⟨_, _, _, _, _, _, _, _, h⟩ := h
  simp only [Option.some.injEq, Prod.mk.injEq] at h
  exact h.1.symm

theorem main_eq_find (shuffle : List Int → List Int) (w : World) :
    main shuffle w =
      (main_insert_phases shuffle w).bind fun p =>
        (main_find p.1 p.2).map fun q => ((0 : Int), q.1, q.2) := by
  simp only [main, main_insert_phases, Option.bind_eq_bind, Option.pure_def]
  cases main_insert_end (main_dataset shuffle) w with
  | none => rfl
  | some p =>
    simp only [Option.some_bind]
    cases main_insert_begin (main_dataset shuffle) p.1 (cout_endl p.2) with
    | none => rfl
    | some q =>
      simp only [Option.some_bind, Option.map_some']
      cases main_find q.1 (cout_endl q.2) <;> rfl

/-- Claim C10.  For every shuffle that returns a permutation of 1..100000
and every clock: the dataset is that permutation; whenever the run reaches
the lookup phase, the containers `c` it starts from are those the two
insertion phases end with, the vector and the list being the dataset
reversed, 100,000 elements each, the set holding the keys 1, 2, ..., 100000
and the unordered set exactly the values from 1 to 100000; `main` is then the
lookup phase run on exactly `c`, which that phase hands back as it was.  The
run does reach the lookup phase when the vector's measured duration is
positive in both insertion phases. -/
theorem lookup_phase_containers (shuffle : List Int → List Int) (w : World)
    (hperm : (shuffle (one_to 100000)).Perm (one_to 100000)) :
    (main_dataset shuffle).data = shuffle (one_to 100000) ∧
    (∀ (c : Containers) (w1 : World), main_insert_phases shuffle w = some (c, w1) →
      main shuffle w = (main_find c w1).map (fun q => ((0 : Int), q.1, q.2)) ∧
      (∀ c' w', main_find c w1 = some (c', w') → c' = c) ∧
      c.v2.data = (shuffle (one_to 100000)).reverse ∧
      c.l.data = (shuffle (one_to 100000)).reverse ∧
      c.v2.data.length = 100000 ∧
      c.l.data.length = 100000 ∧
      c.s.data = one_to 100000 ∧
      (∀ x : Int, x ∈ c.uos.data ↔ 1 ≤ x ∧ x ≤ 100000) ∧
      c.uos.data.card = 100000) ∧
    (0 < (measurement w 0).count → 0 < (measurement w 4).count →
      ∃ (c : Containers) (w1 : World), main_insert_phases shuffle w = some (c, w1)) := by
  have hdata : main_dataset shuffle = ⟨shuffle (one_to 100000)⟩ := main_dataset_eq shuffle
  have hlen : (shuffle (one_to 100000)).length = 100000 := by
    rw [hperm.length_eq, one_to_length]
  have hfin : (shuffle (one_to 100000)).toFinset = (one_to 100000).toFinset :=
    List.toFinset_eq_of_perm _ _ hperm
  refine ⟨by rw [hdata], ?_, ?_⟩
  · intro c w1 hph
    have hmain : main shuffle w = (main_find c w1).map (fun q => ((0 : Int), q.1, q.2)) := by
      rw [main_eq_find, hph]
      rfl
    have hc : c = ⟨(main_dataset shuffle).data.foldl HasInsert.insert_begin ⟨[]⟩,
        (main_dataset shuffle).data.foldl HasInsert.insert_begin ⟨[]⟩,
        (main_dataset shuffle).data.foldl HasInsert.insert_begin ⟨[]⟩,
        (main_dataset shuffle).data.foldl HasInsert.insert_begin ⟨∅⟩⟩ := by
      simp only [main_insert_phases, Option.bind_eq_some, Option.map_eq_some'] at hph
      obtain ⟨p, -, q, hq, hpq⟩ := hph
      have hq1 := main_insert_begin_containers _ _ q.1 _ q.2 hq
      simp only [Prod.mk.injEq] at hpq
      rw [← hpq.1]
      exact hq1
    refine ⟨hmain, fun c' w' h => main_find_containers _ _ _ _ h, ?_, ?_, ?_, ?_, ?_, ?_, ?_⟩
    · simp only [hc, hdata, foldl_vector_insert_begin, List.append_nil]
    · simp only [hc, hdata, foldl_list_insert_begin, List.append_nil]
    · simp only [hc, hdata, foldl_vector_insert_begin, List.append_nil, List.length_reverse,
        hlen]
    · simp only [hc, hdata, foldl_list_insert_begin, List.append_nil, List.length_reverse,
        hlen]
    · simp only [hc, hdata, foldl_set_insert_one_to _ _ hperm]
    · intro x
      simp only [hc, hdata, (foldl_unordered_set_insert _ _).2, Finset.empty_union, hfin,
        List.mem_toFinset, mem_one_to]
      norm_num
    · simp only [hc, hdata, (foldl_unordered_set_insert _ _).2, Finset.empty_union, hfin]
      rw [List.toFinset_card_of_nodup (one_to_nodup 100000), one_to_length]
  · intro h0 h4
    obtain ⟨clock, r, out⟩ := w
    simp only [measurement, Nat.mul_zero, Nat.add_zero, Nat.reduceMul] at h0 h4
    simp only [main_insert_phases, main_insert_end_eq _ _ _ _ h0, Option.some_bind, cout_endl,
      main_insert_begin_eq _ _ _ _ _ h4, Option.map_some']
    exact ⟨_, _, rfl⟩

/-- Witness of C10: the shuffle that reverses the dataset, the clock of
`ticking_world`.  The dataset is 100000, ..., 1; the run reaches the lookup
phase, and the vector and the list the lookups run on hold 1, ..., 100000. -/
theorem lookup_phase_containers_witness :
    ∃ (c : Containers) (w1 : World),
      main_insert_phases List.reverse ticking_world = some (c, w1) ∧
      main List.reverse ticking_world =
        (main_find c w1).map (fun q => ((0 : Int), q.1, q.2)) ∧
      c.v2.data = one_to 100000 ∧
      c.l.data = one_to 100000 ∧
      c.v2.data.length = 100000 ∧
      c.l.data.length = 100000 ∧
      c.s.data = one_to 100000 ∧
      (∀ x : Int, x ∈ c.uos.data ↔ 1 ≤ x ∧ x ≤ 100000) ∧
      c.uos.data.card = 100000 := by
  obtain ⟨-, hprop, hreach⟩ :=
    lookup_phase_containers List.reverse ticking_world (List.reverse_perm _)
  obtain ⟨c, w1, hph⟩ := hreach (by decide) (by decide)
  obtain ⟨h2, -, h3, h4, h5, h6, h7, h8, h9⟩ := hprop c w1 hph
  rw [List.reverse_reverse] at h3 h4
  exact ⟨c, w1, hph, h2, h3, h4, h5, h6, h7, h8, h9⟩

/-! ## Evaluations -/

/-- The model of `percent_relative` on a few inputs: 700 / 3 truncates to
233, a zero baseline has no result, a negative duration truncates toward
zero. -/
theorem percent_relative_evaluations :
    percent_relative ⟨3⟩ ⟨7⟩ = some ⟨233⟩ ∧
    percent_relative ⟨0⟩ ⟨7⟩ = none ∧
    percent_relative ⟨3⟩ ⟨-7⟩ = some ⟨-233⟩ ∧
    percent_relative ⟨17⟩ ⟨29⟩ = some ⟨170⟩ := by
  decide

/-- The model of `print_result` on a few inputs. -/
theorem print_result_evaluations :
    (print_result ⟨3⟩ ⟨7⟩ "List" Operation.find false ⟨fun _ => 0, 0, ""⟩).map World.cout =
      some "List: Finding 1~10,000, elapsed time: 7ms. 233% relative to vector's time.\n" ∧
    (print_result ⟨7⟩ ⟨7⟩ "Vector" Operation.begin true ⟨fun _ => 0, 0, ""⟩).map World.cout =
      some "Vector: Inserting at the beginning, elapsed time: 7ms. \n" ∧
    (print_result ⟨0⟩ ⟨7⟩ "Set" Operation.end_ false ⟨fun _ => 0, 0, ""⟩).map World.cout =
      none := by
  decide

/-- The model of `my_insert` on a few inputs. -/
theorem my_insert_evaluations :
    (my_insert ⟨[3, 1, 2]⟩ (⟨[]⟩ : std_vector) Operation.begin ⟨fun _ => 0, 0, ""⟩).2.1
      = ⟨[2, 1, 3]⟩ ∧
    (my_insert ⟨[3, 1, 2]⟩ (⟨[]⟩ : std_list) Operation.end_ ⟨fun _ => 0, 0, ""⟩).2.1
      = ⟨[3, 1, 2]⟩ ∧
    (my_insert ⟨[3, 1, 2, 3]⟩ (⟨[]⟩ : std_set) Operation.begin ⟨fun _ => 0, 0, ""⟩).2.1
      = ⟨[1, 2, 3]⟩ ∧
    (my_insert ⟨[3, 1, 2, 3]⟩ (⟨∅⟩ : std_unordered_set) Operation.end_
      ⟨fun _ => 0, 0, ""⟩).2.1.data.card = 3 ∧
    (my_insert ⟨[3, 1, 2]⟩ (⟨[7]⟩ : std_vector) Operation.find ⟨fun _ => 0, 0, ""⟩).2.1
      = ⟨[7]⟩ := by
  decide

end StlRuntime
